import Mathlib

/-!
Verification of the tercihify-chat usage-accounting core: the token
estimator and conversation limiter (`src/lib/ai/conversation-limiter.ts`),
the tool-result cleaner (chat route helper `cleanToolResultsFromMessages`),
the conversation summarizer (`src/lib/ai/conversation-summarizer.ts`),
the per-turn usage logger (`src/lib/logging/chat-usage-logger.ts`), and the
analytics queries (`src/lib/db/pg/repositories/usage-repository.pg.ts`).

The TypeScript values are embedded shallowly: JS strings are Lean `String`s,
JS `string.length` (UTF-16 code units) is `utf16Len`, UTF-8 byte length is
`utf8Len`, JSON values are the `Json` inductive with a `stringify` mirroring
`JSON.stringify`, and message `parts` are the tagged union used by the code
(text parts and tool-invocation parts).  All functions are total Lean
functions, which also witnesses that the embedded operations cannot throw.
-/

namespace TercihifyChat

/-- UTF-16 width of a code point: JS `string.length` counts code units,
so astral-plane characters count 2. -/
def utf16Width (c : Char) : Nat :=
  if c.val.toNat < 65536 then 1 else 2

/-- JS `string.length`: number of UTF-16 code units. -/
def utf16Len (s : String) : Nat :=
  s.data.foldl (fun n c => n + utf16Width c) 0

/-- UTF-8 size of one code point (what `Blob`/byte length sees). -/
def charUtf8Size (c : Char) : Nat :=
  if c.val.toNat ≤ 0x7f then 1
  else if c.val.toNat ≤ 0x7ff then 2
  else if c.val.toNat ≤ 0xffff then 3
  else 4

/-- UTF-8 byte length of a string. -/
def utf8Len (s : String) : Nat :=
  s.data.foldl (fun n c => n + charUtf8Size c) 0

/-- JSON values (the shapes flowing through message parts / tool results).
Numbers are modelled as integers, which covers the sizes and counts the
pipeline serializes. -/
inductive Json where
  | null : Json
  | bool (b : Bool) : Json
  | num (n : Int) : Json
  | str (s : String) : Json
  | arr (elems : List Json) : Json
  | obj (fields : List (String × Json)) : Json

mutual

/-- Decidable equality on `Json` (the derive handler does not support the
nested occurrence, so it is written out). -/
def Json.decEq : (a b : Json) → Decidable (a = b)
  | .null, .null => isTrue rfl
  | .bool a, .bool b =>
    if h : a = b then isTrue (by rw [h]) else isFalse (by intro hc; cases hc; exact h rfl)
  | .num a, .num b =>
    if h : a = b then isTrue (by rw [h]) else isFalse (by intro hc; cases hc; exact h rfl)
  | .str a, .str b =>
    if h : a = b then isTrue (by rw [h]) else isFalse (by intro hc; cases hc; exact h rfl)
  | .arr xs, .arr ys =>
    match Json.decEqList xs ys with
    | isTrue h => isTrue (by rw [h])
    | isFalse h => isFalse (by intro hc; cases hc; exact h rfl)
  | .obj fs, .obj gs =>
    match Json.decEqFields fs gs with
    | isTrue h => isTrue (by rw [h])
    | isFalse h => isFalse (by intro hc; cases hc; exact h rfl)
  | .null, .bool _ | .null, .num _ | .null, .str _ | .null, .arr _ | .null, .obj _
  | .bool _, .null | .bool _, .num _ | .bool _, .str _ | .bool _, .arr _ | .bool _, .obj _
  | .num _, .null | .num _, .bool _ | .num _, .str _ | .num _, .arr _ | .num _, .obj _
  | .str _, .null | .str _, .bool _ | .str _, .num _ | .str _, .arr _ | .str _, .obj _
  | .arr _, .null | .arr _, .bool _ | .arr _, .num _ | .arr _, .str _ | .arr _, .obj _
  | .obj _, .null | .obj _, .bool _ | .obj _, .num _ | .obj _, .str _ | .obj _, .arr _ =>
    isFalse (by intro hc; cases hc)

/-- Decidable equality for JSON array element lists. -/
def Json.decEqList : (a b : List Json) → Decidable (a = b)
  | [], [] => isTrue rfl
  | [], _ :: _ => isFalse (by intro hc; cases hc)
  | _ :: _, [] => isFalse (by intro hc; cases hc)
  | x :: xs, y :: ys =>
    match Json.decEq x y with
    | isFalse h => isFalse (by intro hc; cases hc; exact h rfl)
    | isTrue h1 =>
      match Json.decEqList xs ys with
      | isTrue h2 => isTrue (by rw [h1, h2])
      | isFalse h => isFalse (by intro hc; cases hc; exact h rfl)

/-- Decidable equality for JSON object field lists. -/
def Json.decEqFields : (a b : List (String × Json)) → Decidable (a = b)
  | [], [] => isTrue rfl
  | [], _ :: _ => isFalse (by intro hc; cases hc)
  | _ :: _, [] => isFalse (by intro hc; cases hc)
  | (k, v) :: fs, (k2, v2) :: gs =>
    if hk : k = k2 then
      match Json.decEq v v2 with
      | isFalse h => isFalse (by intro hc; cases hc; exact h rfl)
      | isTrue hv =>
        match Json.decEqFields fs gs with
        | isTrue hs => isTrue (by rw [hk, hv, hs])
        | isFalse h => isFalse (by intro hc; cases hc; exact h rfl)
    else isFalse (by intro hc; cases hc; exact hk rfl)

end

instance : DecidableEq Json := Json.decEq

/-- Hex digit character for `\u00XX` escapes. -/
def hexDigit (n : Nat) : Char :=
  if n < 10 then Char.ofNat (48 + n) else Char.ofNat (87 + n)

/-- Escape one character the way `JSON.stringify` escapes string contents. -/
def jsonEscapeChar (c : Char) : String :=
  if c = '"' then "\\\""
  else if c = '\\' then "\\\\"
  else if c = '\x08' then "\\b"
  else if c = '\x0c' then "\\f"
  else if c = '\n' then "\\n"
  else if c = '\r' then "\\r"
  else if c = '\t' then "\\t"
  else if c.val.toNat < 32 then
    String.mk ['\\', 'u', '0', '0', hexDigit (c.val.toNat / 16), hexDigit (c.val.toNat % 16)]
  else String.singleton c

/-- `JSON.stringify` of a string value (quotes plus escaped body). -/
def jsonQuote (s : String) : String :=
  "\"" ++ s.data.foldl (fun acc c => acc ++ jsonEscapeChar c) "" ++ "\""

mutual

/-- `JSON.stringify` on the `Json` model. -/
def Json.stringify : Json → String
  | .null => "null"
  | .bool true => "true"
  | .bool false => "false"
  | .num n => toString n
  | .str s => jsonQuote s
  | .arr elems => "[" ++ Json.stringifyList elems ++ "]"
  | .obj fields => "\x7b" ++ Json.stringifyFields fields ++ "\x7d"

/-- Comma-separated serialization of array elements. -/
def Json.stringifyList : List Json → String
  | [] => ""
  | [x] => x.stringify
  | x :: xs => x.stringify ++ "," ++ Json.stringifyList xs

/-- Comma-separated serialization of object fields. -/
def Json.stringifyFields : List (String × Json) → String
  | [] => ""
  | [(k, v)] => jsonQuote k ++ ":" ++ v.stringify
  | (k, v) :: fs => jsonQuote k ++ ":" ++ v.stringify ++ "," ++ Json.stringifyFields fs

end

/-- JS truthiness of a JSON value (`!value` in the cleaner's filter):
`null`, `false`, `0` and `""` are falsy, everything else truthy. -/
def Json.isTruthy : Json → Bool
  | .null => false
  | .bool b => b
  | .num n => !(n == 0)
  | .str s => !(s == "")
  | .arr _ => true
  | .obj _ => true

/-- A message part: the tagged union the estimator/cleaner handle
(`{type:"text",text}` and `{type:"tool-invocation",toolInvocation:
{toolName,args,result?}}`); an absent `result` is `none`. -/
inductive MessagePart where
  | text (text : String) : MessagePart
  | toolInvocation (toolName : String) (args : Json) (result : Option Json) : MessagePart
deriving DecidableEq

/-- A chat message (the `ai` package `Message`): role and primary content
are strings; `parts` is optional exactly as `(msg as any).parts` may be
absent. -/
structure Message where
  id : String
  role : String
  content : String
  parts : Option (List MessagePart) := none
deriving DecidableEq

/-- Truthiness of an optional tool result (`part.toolInvocation?.result`):
absent counts as falsy. -/
def resultTruthy : Option Json → Bool
  | none => false
  | some j => j.isTruthy

/-! ## TokenEstimator (`ConversationLimiter.estimateTokens`) -/

/-- The object the estimator serializes for a tool-invocation part:
`JSON.stringify({ toolName: ..., args: ... })` — the attached result is
deliberately not included. -/
def toolCallString (toolName : String) (args : Json) : String :=
  (Json.obj [("toolName", Json.str toolName), ("args", args)]).stringify

/-- Per-part contribution inside `estimateTokens`'s inner `reduce`:
`part.text.length` for text parts, length of the serialized
`{toolName,args}` for tool-invocation parts. -/
def partLen : MessagePart → Nat
  | .text t => utf16Len t
  | .toolInvocation n a _ => utf16Len (toolCallString n a)

/-- One message's contribution: `content.length` plus the parts `reduce`
(`(msg as any).parts || []`). -/
def msgSize (m : Message) : Nat :=
  utf16Len m.content + (m.parts.getD []).foldl (fun sum p => sum + partLen p) 0

/-- `ConversationLimiter.estimateTokens`: the outer `reduce` summing
`msgSize`, then `Math.ceil(contentSize / 4)`. -/
def estimateTokens (messages : List Message) : Nat :=
  (messages.foldl (fun total m => total + msgSize m) 0 + 3) / 4

/-- `estimateMessageTokens`: estimate of a singleton list. -/
def estimateMessageTokens (m : Message) : Nat :=
  estimateTokens [m]

/-! Spec-side reformulations used to state claim C1. -/

/-- Spec-side total, in UTF-16 code units: sum over messages of the primary
content length plus, per part, the text length or serialized tool-call
length (results excluded). -/
def totalUnits (messages : List Message) : Nat :=
  (messages.map (fun m => utf16Len m.content + ((m.parts.getD []).map partLen).sum)).sum

/-- Spec-side per-part size in UTF-8 bytes (the byte-length reading of the
spec's words). -/
def partBytes : MessagePart → Nat
  | .text t => utf8Len t
  | .toolInvocation n a _ => utf8Len (toolCallString n a)

/-- Spec-side total in UTF-8 bytes, as the claim's words state it. -/
def totalBytes (messages : List Message) : Nat :=
  (messages.map (fun m => utf8Len m.content + ((m.parts.getD []).map partBytes).sum)).sum

/-- Drop the attached result of a tool-invocation part. -/
def erasePart : MessagePart → MessagePart
  | .text t => .text t
  | .toolInvocation n a _ => .toolInvocation n a none

/-- Erase every tool-invocation result from every message (the payloads the
estimator must not count). -/
def eraseResults (messages : List Message) : List Message :=
  messages.map (fun m => { m with parts := m.parts.map (·.map erasePart) })

/-! ## ContentCleaner (`cleanToolResultsFromMessages` in the chat route) -/

/-- The cleaner's filter predicate: a part survives unless it is a
tool-invocation whose `result` is truthy (`return !part.toolInvocation?.result`
for tool-invocation parts, `return true` otherwise). -/
def keepPart : MessagePart → Bool
  | .toolInvocation _ _ r => !resultTruthy r
  | .text _ => true

/-- Clean one message: messages without a `parts` field are returned as-is
(`if (!uiMsg.parts) return msg`), otherwise the parts are filtered and the
message rebuilt via spread. -/
def cleanMessage (m : Message) : Message :=
  match m.parts with
  | none => m
  | some ps => { m with parts := some (ps.filter keepPart) }

/-- `cleanToolResultsFromMessages`: map the per-message cleaning over the
whole history without mutating the input. -/
def cleanToolResultsFromMessages (messages : List Message) : List Message :=
  messages.map cleanMessage

/-- A part the cleaner removes: a tool-invocation carrying a truthy result
(a completed call). -/
def isRemovedToolPart : MessagePart → Bool
  | .toolInvocation _ _ r => resultTruthy r
  | .text _ => false

/-- The `removedToolResults` counter computed by the route's
`cleaned_messages_analysis` step: a `forEach` over messages and their parts
counting tool-invocation parts with a truthy result. -/
def removedToolResults (messages : List Message) : Nat :=
  messages.foldl (fun n m => n + (m.parts.getD []).countP isRemovedToolPart) 0

/-- Spec-side count used by claim C2's words: tool-invocation parts whose
result is *present and non-null* (which is weaker than truthy: `false`, `0`
and `""` are present and non-null but falsy). -/
def presentNonNullCount (messages : List Message) : Nat :=
  (messages.map (fun m => (m.parts.getD []).countP (fun p =>
    match p with
    | .toolInvocation _ _ (some j) => !(j == Json.null)
    | _ => false))).sum

/-- Spec-side reformulation of the cleaner's own removal count (truthy
results), stated with `map`/`sum` instead of the route's fold. -/
def truthyResultCount (messages : List Message) : Nat :=
  (messages.map (fun m => (m.parts.getD []).countP isRemovedToolPart)).sum

/-- Total number of parts across a message list (absent `parts` counts 0). -/
def totalPartsCount (messages : List Message) : Nat :=
  (messages.map (fun m => (m.parts.getD []).length)).sum

/-! ## ConversationLimiter (`src/lib/ai/conversation-limiter.ts`) -/

/-- Limiter configuration; `maxTokens` defaults to 8000 and
`preserveSystemMessages` to true in the source constructor. -/
structure LimiterConfig where
  maxTokens : Nat
  preserveSystemMessages : Bool
deriving DecidableEq

/-- `ConversationLimiter.shouldLimit`: `estimateTokens(messages) > maxTokens`. -/
def shouldLimit (cfg : LimiterConfig) (messages : List Message) : Bool :=
  cfg.maxTokens < estimateTokens messages

/-- The result record returned by `limitConversation`.  `tokensRemoved` and
`tokensSaved` are JS subtractions, so they are embedded as integers. -/
structure LimitationResult where
  limitedMessages : List Message
  originalCount : Nat
  limitedCount : Nat
  tokensRemoved : Int
  tokensSaved : Int
deriving DecidableEq

/-- The system-role messages the limiter preserves (empty when
`preserveSystemMessages` is off, in which case no partition happens). -/
def systemMessagesOf (cfg : LimiterConfig) (messages : List Message) : List Message :=
  if cfg.preserveSystemMessages then messages.filter (fun m => m.role == "system") else []

/-- The non-system side of the partition (the whole input when
`preserveSystemMessages` is off). -/
def nonSystemMessagesOf (cfg : LimiterConfig) (messages : List Message) : List Message :=
  if cfg.preserveSystemMessages then messages.filter (fun m => !(m.role == "system")) else messages

/-- Seeding of the kept list: system messages are pushed (and their joint
estimate added to the running total) only when preserving is on, there is at
least one system message, and their joint estimate is strictly under
`maxTokens`. -/
def seedOf (cfg : LimiterConfig) (messages : List Message) : List Message × Nat :=
  let sys := systemMessagesOf cfg messages
  if cfg.preserveSystemMessages && !sys.isEmpty && decide (estimateTokens sys < cfg.maxTokens)
  then (sys, estimateTokens sys) else ([], 0)

/-- The backwards `for` loop: messages arrive most-recent first (the reversed
non-system list); each is `unshift`ed onto the kept list unless adding its
estimate would push the running total over `maxTokens`, at which point the
loop breaks. -/
def walkLoop (maxTokens : Nat) : List Message → List Message → Nat → List Message × Nat
  | [], acc, cur => (acc, cur)
  | m :: rest, acc, cur =>
    if maxTokens < cur + estimateMessageTokens m then (acc, cur)
    else walkLoop maxTokens rest (m :: acc) (cur + estimateMessageTokens m)

/-- Kept list and running token total after seeding and the recency walk. -/
def limiterWalk (cfg : LimiterConfig) (messages : List Message) : List Message × Nat :=
  walkLoop cfg.maxTokens (nonSystemMessagesOf cfg messages).reverse
    (seedOf cfg messages).1 (seedOf cfg messages).2

/-- The guard of the source's final truncation block:
`limitedMessages.length === systemMessages.length && currentTokens > maxTokens`. -/
def collapseCond (cfg : LimiterConfig) (messages : List Message) : Bool :=
  (limiterWalk cfg messages).1.length == (systemMessagesOf cfg messages).length
    && decide (cfg.maxTokens < (limiterWalk cfg messages).2)

/-- The ordinary (non-collapsed) result built at the end of
`limitConversation`. -/
def mainResult (cfg : LimiterConfig) (messages : List Message) : LimitationResult :=
  { limitedMessages := (limiterWalk cfg messages).1
    originalCount := messages.length
    limitedCount := (limiterWalk cfg messages).1.length
    tokensRemoved := (messages.length : Int) - (limiterWalk cfg messages).1.length
    tokensSaved := (estimateTokens messages : Int)
      - estimateTokens (limiterWalk cfg messages).1 }

/-- The early-return result when the conversation is already within budget. -/
def noopResult (messages : List Message) : LimitationResult :=
  { limitedMessages := messages
    originalCount := messages.length
    limitedCount := messages.length
    tokensRemoved := 0
    tokensSaved := 0 }

/-- The collapse block: keep only the most recent system message when it
alone fits.  In JS an empty `systemMessages` here would read `undefined`;
the branch is modelled totally (falling through to the main result), and
`collapseCond_false` below shows the whole block is unreachable anyway. -/
def collapseResult (cfg : LimiterConfig) (messages : List Message) : LimitationResult :=
  match (systemMessagesOf cfg messages).getLast? with
  | some recent =>
    if estimateMessageTokens recent ≤ cfg.maxTokens then
      { limitedMessages := [recent]
        originalCount := messages.length
        limitedCount := 1
        tokensRemoved := (messages.length : Int) - 1
        tokensSaved := (estimateTokens messages : Int) - estimateMessageTokens recent }
    else mainResult cfg messages
  | none => mainResult cfg messages

/-- `ConversationLimiter.limitConversation`. -/
def limitConversation (cfg : LimiterConfig) (messages : List Message) : LimitationResult :=
  if shouldLimit cfg messages then
    if collapseCond cfg messages then collapseResult cfg messages
    else mainResult cfg messages
  else noopResult messages

/-- The same function with the (dead) collapse block removed; used to state
claim C8. -/
def limitConversationPlain (cfg : LimiterConfig) (messages : List Message) : LimitationResult :=
  if shouldLimit cfg messages then mainResult cfg messages else noopResult messages

/-! ## ConversationSummarizer (`src/lib/ai/conversation-summarizer.ts`) -/

/-- Summarizer configuration (defaults in source: 8000 / 6 /
"claude-3-5-haiku-20241022"). -/
structure SummarizerConfig where
  maxTokens : Nat
  keepRecentMessages : Nat
  summaryModel : String
deriving DecidableEq

/-- The summary metadata record (`ConversationSummary`); `summarizedAt` is a
wall-clock string and is represented by the `now` tick that produced it. -/
structure ConversationSummary where
  summary : String
  originalMessageCount : Nat
  summarizedAt : Nat
  tokensSaved : Int
deriving DecidableEq

/-- Serialized form of a whole part, as `JSON.stringify(part)` sees it in the
summarizer's estimator: the `{type, text}` or `{type, toolInvocation}` object
(an absent result field is omitted, as `JSON.stringify` drops `undefined`). -/
def partFullJson : MessagePart → Json
  | .text t => Json.obj [("type", Json.str "text"), ("text", Json.str t)]
  | .toolInvocation n a r =>
    Json.obj [("type", Json.str "tool-invocation"),
      ("toolInvocation", Json.obj
        ([("toolName", Json.str n), ("args", a)] ++
          match r with
          | some res => [("result", res)]
          | none => []))]

/-- The summarizer's own `estimateTokens`: text parts contribute their text
length, every other part its full serialized length (unlike the limiter's
estimator there is no tool-invocation special case). -/
def summarizerEstimateTokens (messages : List Message) : Nat :=
  (messages.foldl (fun total m =>
    total + utf16Len m.content +
      (m.parts.getD []).foldl (fun sum p =>
        match p with
        | .text t => sum + utf16Len t
        | p => sum + utf16Len (partFullJson p).stringify) 0) 0 + 3) / 4

/-- The gate as shipped: `shouldSummarize` is hard-coded to `false`
(summarization disabled by policy). -/
def shouldSummarizeShipped (_messages : List Message) : Bool :=
  false

/-- Modelled from the spec: the original `shouldSummarize` policy kept in the
source as a comment (estimated tokens over `maxTokens` and more messages than
`keepRecentMessages`); the spec requires the gate to stay toggleable. -/
def shouldSummarizeOriginal (cfg : SummarizerConfig) (messages : List Message) : Bool :=
  decide (cfg.maxTokens < summarizerEstimateTokens messages)
    && decide (cfg.keepRecentMessages < messages.length)

/-- `messages.slice(-keep)`: JS negative-index slice.  `-0` is `0`, so
`keep = 0` yields the whole list; otherwise the last `keep` elements. -/
def jsSliceLastNeg (messages : List Message) (keep : Nat) : List Message :=
  if keep = 0 then messages else messages.drop (messages.length - keep)

/-- `messages.slice(0, -keep)`: the complement; empty when `keep = 0`. -/
def jsSliceInitNeg (messages : List Message) (keep : Nat) : List Message :=
  if keep = 0 then [] else messages.take (messages.length - keep)

/-- `ConversationSummarizer.summarizeConversation`.  The auxiliary
`generateText` call is abstracted into `outcome` (its produced text or its
thrown error); `gate` is the `shouldSummarize` decision (hard-coded `false`
in the shipped source, kept toggleable per the spec); `now` is `Date.now()`.
The transcript/prompt string fed to the auxiliary model only flows into the
abstracted call and is not re-modelled. -/
def summarizeConversation (cfg : SummarizerConfig) (gate : Bool) (now : Nat)
    (outcome : Except Unit String) (messages : List Message) :
    List Message × ConversationSummary :=
  if !gate then
    (messages, { summary := "", originalMessageCount := 0, summarizedAt := now, tokensSaved := 0 })
  else
    let messagesToSummarize := jsSliceInitNeg messages cfg.keepRecentMessages
    let recentMessages := jsSliceLastNeg messages cfg.keepRecentMessages
    match outcome with
    | .error _ =>
      (messages, { summary := "", originalMessageCount := 0, summarizedAt := now, tokensSaved := 0 })
    | .ok summaryText =>
      let originalTokens := summarizerEstimateTokens messagesToSummarize
      let summaryTokens := (utf16Len summaryText + 3) / 4
      let summaryMessage : Message :=
        { id := "summary-" ++ toString now
          role := "system"
          content := "[Conversation Summary: " ++ summaryText ++ "]" }
      (summaryMessage :: recentMessages,
        { summary := summaryText
          originalMessageCount := messagesToSummarize.length
          summarizedAt := now
          tokensSaved := (originalTokens : Int) - summaryTokens })

/-! ## UsageAccumulator (`src/lib/logging/chat-usage-logger.ts`) -/

/-- One recorded step (`ChatUsageStep`).  The deep payload fields
(`toolCallResults`, `promptSizeBreakdown`, `actualContent`,
`additionalData`) are carried opaquely by the claims and are omitted; the
numeric fields the totals and the claims read are kept. -/
structure ChatUsageStep where
  stepName : String
  timestamp : Nat
  promptTokens : Option Nat := none
  completionTokens : Option Nat := none
  totalTokens : Option Nat := none
  messagesCount : Option Nat := none
  toolsCount : Option Nat := none
  mcpToolsCount : Option Nat := none
  workflowToolsCount : Option Nat := none
  appDefaultToolsCount : Option Nat := none
deriving DecidableEq

/-- The per-turn log (`ChatUsageLog`). -/
structure ChatUsageLog where
  sessionId : String
  messageId : String
  timestamp : Nat
  userId : String
  model : String
  steps : List ChatUsageStep
  totalPromptTokens : Nat
  totalCompletionTokens : Nat
  totalTokens : Nat
  totalExecutionTime : Nat
  requestSize : Nat
  responseSize : Nat
deriving DecidableEq

/-- Logger state: the in-flight log (`currentLog`, `null` when
uninitialized), the durably saved logs (`saveLog` writes), and the number of
`console.warn` emissions from recording without an active log. -/
structure LoggerState where
  currentLog : Option ChatUsageLog
  savedLogs : List ChatUsageLog
  warningsCount : Nat
deriving DecidableEq

/-- Parameters of `initializeLog`. -/
structure InitLogParams where
  sessionId : String
  messageId : String
  userId : String
  model : String
  requestSize : Option Nat := none
deriving DecidableEq

/-- `initializeLog`: start a fresh log with zeroed totals
(`requestSize || 0`). -/
def initializeLog (st : LoggerState) (p : InitLogParams) (now : Nat) : LoggerState :=
  { st with currentLog := some (
    { sessionId := p.sessionId
      messageId := p.messageId
      timestamp := now
      userId := p.userId
      model := p.model
      steps := []
      totalPromptTokens := 0
      totalCompletionTokens := 0
      totalTokens := 0
      totalExecutionTime := 0
      requestSize := p.requestSize.getD 0
      responseSize := 0 : ChatUsageLog }) }

/-- The truthiness-guarded fold of one optional token field into a running
total (`if (step.promptTokens) total += step.promptTokens`; a present `0` is
falsy and skipped, which adds nothing either way). -/
def foldTokens (field : Option Nat) (total : Nat) : Nat :=
  match field with
  | some k => if k ≠ 0 then total + k else total
  | none => total

/-- `addStep`: without an active log, warn and do nothing; otherwise append
the step and fold its token fields into the running totals. -/
def addStep (st : LoggerState) (step : ChatUsageStep) : LoggerState :=
  match st.currentLog with
  | none => { st with warningsCount := st.warningsCount + 1 }
  | some log =>
    { st with currentLog := some (
      { log with
        steps := log.steps ++ [step]
        totalPromptTokens := foldTokens step.promptTokens log.totalPromptTokens
        totalCompletionTokens := foldTokens step.completionTokens log.totalCompletionTokens
        totalTokens := foldTokens step.totalTokens log.totalTokens }) }

/-- `logLLMUsage`: sugar over `addStep` with the three token counts and a
step name defaulting to "llm_call". -/
def logLLMUsage (st : LoggerState) (promptTokens completionTokens totalTokens : Nat)
    (stepName : Option String) (now : Nat) : LoggerState :=
  addStep st
    { stepName := stepName.getD "llm_call"
      timestamp := now
      promptTokens := some promptTokens
      completionTokens := some completionTokens
      totalTokens := some totalTokens }

/-- `logToolsLoaded`: sugar over `addStep` recording the key counts of the
three tool records (`Object.keys(...).length` each) and their sum as
`toolsCount`. -/
def logToolsLoaded (st : LoggerState)
    (mcpTools workflowTools appDefaultTools : List String) (now : Nat) : LoggerState :=
  addStep st
    { stepName := "tools_loaded"
      timestamp := now
      mcpToolsCount := some mcpTools.length
      workflowToolsCount := some workflowTools.length
      appDefaultToolsCount := some appDefaultTools.length
      toolsCount := some (mcpTools.length + workflowTools.length + appDefaultTools.length) }

/-- `finalizeAndSave`: without an active log, warn and do nothing; otherwise
stamp response size and elapsed time, durably save the sealed log, and clear
the in-flight log. -/
def finalizeAndSave (st : LoggerState) (responseSize : Option Nat) (now : Nat) : LoggerState :=
  match st.currentLog with
  | none => { st with warningsCount := st.warningsCount + 1 }
  | some log =>
    let sealed := { log with
      responseSize := responseSize.getD 0
      totalExecutionTime := now - log.timestamp }
    { st with currentLog := none, savedLogs := st.savedLogs ++ [sealed] }

/-- The running totals of the in-flight log (zeros when uninitialized). -/
def logTotals (st : LoggerState) : Nat × Nat × Nat :=
  match st.currentLog with
  | none => (0, 0, 0)
  | some log => (log.totalPromptTokens, log.totalCompletionTokens, log.totalTokens)

/-! ## UsageStore (`src/lib/db/pg/repositories/usage-repository.pg.ts`) -/

/-- One persisted `chat_usage_log` row, the granularity the aggregate
queries read. -/
structure UsageRow where
  sessionId : String
  userId : String
  model : String
  timestamp : Int
  totalPromptTokens : Nat
  totalCompletionTokens : Nat
  totalTokens : Nat
deriving DecidableEq

/-- The time-window filter; the TS struct is a bag of optional booleans
checked in a fixed order, so the effective choice is one of these. -/
inductive TimeRange where
  | lastMinute : TimeRange
  | lastHour : TimeRange
  | lastDay : TimeRange
  | lastWeek : TimeRange
  | lastMonth : TimeRange
  | custom (start finish : Int) : TimeRange
  | allTime : TimeRange
deriving DecidableEq

/-- `UsageAnalyticsFilters`. -/
structure UsageFilters where
  timeRange : TimeRange
  userId : Option String := none
  sessionId : Option String := none
deriving DecidableEq

/-- The time condition of a filter at clock `now` (milliseconds). -/
def timeCond (now : Int) : TimeRange → Int → Bool
  | .lastMinute, t => decide (now - 60 * 1000 ≤ t)
  | .lastHour, t => decide (now - 60 * 60 * 1000 ≤ t)
  | .lastDay, t => decide (now - 24 * 60 * 60 * 1000 ≤ t)
  | .lastWeek, t => decide (now - 7 * 24 * 60 * 60 * 1000 ≤ t)
  | .lastMonth, t => decide (now - 30 * 24 * 60 * 60 * 1000 ≤ t)
  | .custom start finish, t => decide (start ≤ t) && decide (t ≤ finish)
  | .allTime, _ => true

/-- The full `WHERE` condition: time window plus the optional user and
session equality filters. -/
def matchesFilter (now : Int) (flt : UsageFilters) (row : UsageRow) : Bool :=
  timeCond now flt.timeRange row.timestamp
    && (match flt.userId with | some u => row.userId == u | none => true)
    && (match flt.sessionId with | some s => row.sessionId == s | none => true)

/-- `TokenUsageSummary`. -/
structure TokenUsageSummary where
  totalTokens : Nat
  promptTokens : Nat
  completionTokens : Nat
  averageTokensPerRequest : Nat
  peakTokenUsage : Nat
  totalRequests : Nat
  uniqueSessions : Nat
deriving DecidableEq

/-- SQL `SUM` over the selected rows: `NULL` on an empty set, modelled as
`none` (both the driver mapping and the `|| 0` guards coalesce it to 0). -/
def sumAgg (xs : List Nat) : Option Nat :=
  if xs.isEmpty then none else some xs.sum

/-- SQL `MAX` over the selected rows, `NULL` on an empty set. -/
def maxAgg (xs : List Nat) : Option Nat :=
  if xs.isEmpty then none else some (xs.foldl max 0)

/-- `Math.round(num / den)` on non-negative operands: round half up. -/
def jsRoundDiv (num den : Nat) : Nat :=
  (2 * num + den) / (2 * den)

/-- `getTokenUsageSummary`: one aggregate row over the filtered set, each
nullable sum coalesced with `|| 0`, the average guarded by the truthiness of
`totalRequests` (`0` when the request count is `0`). -/
def getTokenUsageSummary (now : Int) (flt : UsageFilters) (rows : List UsageRow) :
    TokenUsageSummary :=
  let sel := rows.filter (matchesFilter now flt)
  let totalRequests := sel.length
  let totalTokensSum := (sumAgg (sel.map (·.totalTokens))).getD 0
  { totalTokens := totalTokensSum
    promptTokens := (sumAgg (sel.map (·.totalPromptTokens))).getD 0
    completionTokens := (sumAgg (sel.map (·.totalCompletionTokens))).getD 0
    averageTokensPerRequest :=
      if totalRequests ≠ 0 then jsRoundDiv totalTokensSum totalRequests else 0
    peakTokenUsage := (maxAgg (sel.map (·.totalTokens))).getD 0
    totalRequests := totalRequests
    uniqueSessions := (sel.map (·.sessionId)).eraseDups.length }

/-- One row of `getHighUsageSessions`: the grouped aggregate selected per
`(sessionId, userId)`. -/
structure SessionAgg where
  sessionId : String
  userId : String
  totalTokens : Nat
  peakTokenUsage : Nat
  messageCount : Nat
  lastActivity : Int
deriving DecidableEq

/-- The `GROUP BY (session_id, user_id)` keys, in first-appearance order. -/
def groupKeys (rows : List UsageRow) : List (String × String) :=
  (rows.map (fun r => (r.sessionId, r.userId))).eraseDups

/-- The aggregate row of one group. -/
def sessionAggOf (rows : List UsageRow) (key : String × String) : SessionAgg :=
  let grp := rows.filter (fun r => r.sessionId == key.1 && r.userId == key.2)
  { sessionId := key.1
    userId := key.2
    totalTokens := (grp.map (·.totalTokens)).sum
    peakTokenUsage := (grp.map (·.totalTokens)).foldl max 0
    messageCount := grp.length
    lastActivity := (grp.map (·.timestamp)).foldl max 0 }

/-- The descending ranking relation of `ORDER BY SUM(total_tokens) DESC`
(SQL leaves the relative order of ties unspecified; any sort by this total
relation refines it). -/
def sessDesc (a b : SessionAgg) : Prop :=
  b.totalTokens ≤ a.totalTokens

instance : DecidableRel sessDesc :=
  fun a b => inferInstanceAs (Decidable (b.totalTokens ≤ a.totalTokens))

instance : IsTotal SessionAgg sessDesc :=
  ⟨fun a b => Nat.le_total b.totalTokens a.totalTokens⟩

instance : IsTrans SessionAgg sessDesc :=
  ⟨fun _ _ _ h1 h2 => Nat.le_trans h2 h1⟩

/-- The qualifying groups of `getHighUsageSessions`: grouped aggregates whose
summed tokens meet the `HAVING SUM(...) >= minTokens` threshold. -/
def qualifyingSessions (rows : List UsageRow) (minTokens : Nat) : List SessionAgg :=
  ((groupKeys rows).map (sessionAggOf rows)).filter
    (fun a => decide (minTokens ≤ a.totalTokens))

/-- `getHighUsageSessions(limit, minTokens)`: qualifying groups ordered by
summed tokens descending, capped at `limit`. -/
def getHighUsageSessions (rows : List UsageRow) (limit minTokens : Nat) :
    List SessionAgg :=
  (List.insertionSort sessDesc (qualifyingSessions rows minTokens)).take limit

/-! ## Concrete inputs used by counterexamples, scenarios and witnesses -/

/-- A message whose content is four non-ASCII characters: 4 UTF-16 code
units but 8 UTF-8 bytes. -/
def cNonAsciiMsg : Message :=
  { id := "cx1", role := "user", content := "çççç" }

/-- A message carrying a completed-looking tool-invocation whose result is
`false`: present and non-null, yet falsy. -/
def cFalsyResultMsg : Message :=
  { id := "cx2", role := "assistant", content := ""
    parts := some [.toolInvocation "lookup" Json.null (some (Json.bool false))] }

/-- Limiter counterexample configuration: budget of 2 estimated tokens. -/
def cLimCfg : LimiterConfig := ⟨2, true⟩

/-- A 1-token system message. -/
def cSysMsg : Message := { id := "m0", role := "system", content := "abcd" }

/-- 1-token user messages. -/
def cUser1 : Message := { id := "m1", role := "user", content := "abcd" }

def cUser2 : Message := { id := "m2", role := "user", content := "abcd" }

/-- Limiter configuration with a 1-token budget. -/
def cTinyCfg : LimiterConfig := ⟨1, true⟩

/-- A 2-token system message (over the tiny budget on its own). -/
def cBigSys : Message := { id := "s", role := "system", content := "abcdefgh" }

/-- A 2-token user message (over the tiny budget on its own). -/
def cBigUser : Message := { id := "u", role := "user", content := "abcdefgh" }

/-- Summarizer messages for the C5 scenario. -/
def cMsgA : Message := { id := "a", role := "user", content := "abcdefgh" }

def cMsgB : Message := { id := "b", role := "user", content := "abcdefgh" }

/-- Summarizer configuration with `keepRecentMessages = 0` (the JS
`slice(-0)` quirk) and `maxTokens = 0` so the original gate fires. -/
def cKeepZeroCfg : SummarizerConfig := ⟨0, 0, "mdl"⟩

/-- Summarizer configuration with `keepRecentMessages = 1`. -/
def cKeepOneCfg : SummarizerConfig := ⟨0, 1, "mdl"⟩

/-- Scenario 4 rows: three sessions totalling 500, 1200 and 5000 tokens. -/
def cRow500 : UsageRow := ⟨"s1", "u1", "mdl", 10, 300, 200, 500⟩

def cRow1200 : UsageRow := ⟨"s2", "u2", "mdl", 20, 700, 500, 1200⟩

def cRow5000 : UsageRow := ⟨"s3", "u3", "mdl", 30, 3000, 2000, 5000⟩

/-! ## General helper lemmas -/

/-- A fold accumulating `f` over a list equals the starting value plus the
mapped sum. -/
theorem foldl_add_sum {α : Type} (f : α → Nat) (n : Nat) (l : List α) :
    l.foldl (fun acc a => acc + f a) n = n + (l.map f).sum := by
  induction l generalizing n with
  | nil => simp
  | cons a l ih => simp [ih, Nat.add_assoc]

/-- The summed per-message sizes (the value the estimator divides by 4). -/
def contentUnits (messages : List Message) : Nat :=
  (messages.map msgSize).sum

theorem estimateTokens_eq (messages : List Message) :
    estimateTokens messages = (contentUnits messages + 3) / 4 := by
  unfold estimateTokens contentUnits
  rw [foldl_add_sum]
  simp

theorem msgSize_eq (m : Message) :
    msgSize m = utf16Len m.content + ((m.parts.getD []).map partLen).sum := by
  unfold msgSize
  rw [foldl_add_sum]
  simp

theorem contentUnits_append (l₁ l₂ : List Message) :
    contentUnits (l₁ ++ l₂) = contentUnits l₁ + contentUnits l₂ := by
  simp [contentUnits]

theorem contentUnits_cons (m : Message) (l : List Message) :
    contentUnits (m :: l) = msgSize m + contentUnits l := by
  simp [contentUnits]

theorem contentUnits_reverse (l : List Message) :
    contentUnits l.reverse = contentUnits l := by
  simp [contentUnits, List.sum_reverse]

theorem contentUnits_take_le (l : List Message) (j : Nat) :
    contentUnits (l.take j) ≤ contentUnits l := by
  conv_rhs => rw [← List.take_append_drop j l]
  rw [contentUnits_append]
  omega

/-- Ceiling division by 4 is subadditive. -/
theorem ceil4_add_le (a b : Nat) : (a + b + 3) / 4 ≤ (a + 3) / 4 + (b + 3) / 4 := by
  omega

theorem estimateTokens_mono {l₁ l₂ : List Message}
    (h : contentUnits l₁ ≤ contentUnits l₂) :
    estimateTokens l₁ ≤ estimateTokens l₂ := by
  rw [estimateTokens_eq, estimateTokens_eq]
  omega

theorem estimateTokens_append_le (l₁ l₂ : List Message) :
    estimateTokens (l₁ ++ l₂) ≤ estimateTokens l₁ + estimateTokens l₂ := by
  rw [estimateTokens_eq, estimateTokens_eq, estimateTokens_eq, contentUnits_append]
  exact ceil4_add_le _ _

theorem estimateTokens_cons_le (m : Message) (l : List Message) :
    estimateTokens (m :: l) ≤ estimateMessageTokens m + estimateTokens l := by
  have h := estimateTokens_append_le [m] l
  simpa [estimateMessageTokens] using h

/-! ## Claim C1 -/

theorem partLen_erasePart (p : MessagePart) : partLen (erasePart p) = partLen p := by
  cases p <;> rfl

/-- Pointwise-equal functions map lists identically. -/
theorem map_ext {α β : Type} (f g : α → β) (h : ∀ a, f a = g a) (l : List α) :
    l.map f = l.map g := by
  induction l with
  | nil => rfl
  | cons a l ih => simp only [List.map_cons, h a, ih]

theorem msgSize_erasePart (m : Message) :
    msgSize { m with parts := m.parts.map (·.map erasePart) } = msgSize m := by
  rw [msgSize_eq, msgSize_eq]
  cases hm : m.parts with
  | none => simp [hm]
  | some ps =>
    have hmap : (List.map erasePart ps).map partLen = ps.map partLen := by
      rw [List.map_map]
      exact map_ext _ _ (fun p => partLen_erasePart p) ps
    simp [hm, hmap]

theorem estimateTokens_eraseResults (messages : List Message) :
    estimateTokens (eraseResults messages) = estimateTokens messages := by
  rw [estimateTokens_eq, estimateTokens_eq]
  congr 2
  unfold contentUnits eraseResults
  rw [List.map_map]
  congr 1
  refine map_ext _ _ (fun m => ?_) messages
  simpa using msgSize_erasePart m

theorem totalUnits_eq_contentUnits (messages : List Message) :
    totalUnits messages = contentUnits messages := by
  unfold totalUnits contentUnits
  congr 1
  exact map_ext _ _ (fun m => (msgSize_eq m).symm) messages

/-- C1 (amended): for every message list, `estimateTokens` returns
`ceil(totalUnits/4)` where `totalUnits` sums, per message, the primary
content length plus each text part's text length and each tool-invocation
part's serialized `{toolName,args}` length — all counted in UTF-16 code
units (JS `string.length`), not UTF-8 bytes — and the estimate is invariant
under erasing every attached tool result.  The function is a pure total
function of its input. -/
theorem estimateTokens_ceil_units_excludes_results :
    ∀ messages : List Message,
      estimateTokens messages = (totalUnits messages + 3) / 4 ∧
      estimateTokens (eraseResults messages) = estimateTokens messages := by
  intro messages
  exact ⟨by rw [estimateTokens_eq, totalUnits_eq_contentUnits],
    estimateTokens_eraseResults messages⟩

/-- C1 counterexample: on a message whose content is four 2-byte characters
(4 UTF-16 units, 8 UTF-8 bytes) the implementation returns
`ceil(4/4) = 1` while the claimed byte-based formula gives `ceil(8/4) = 2`. -/
theorem estimateTokens_not_byte_based :
    estimateTokens [cNonAsciiMsg] = 1 ∧ (totalBytes [cNonAsciiMsg] + 3) / 4 = 2 := by
  exact ⟨by decide, by decide⟩

/-! ## Claim C2 -/

theorem keepPart_eq_not_removed (p : MessagePart) :
    keepPart p = !isRemovedToolPart p := by
  cases p <;> rfl

theorem cleanMessage_parts (m : Message) :
    (cleanMessage m).parts.getD [] = (m.parts.getD []).filter keepPart := by
  cases hm : m.parts <;> simp [cleanMessage, hm]

theorem cleanMessage_idem (m : Message) :
    cleanMessage (cleanMessage m) = cleanMessage m := by
  cases hm : m.parts with
  | none => simp [cleanMessage, hm]
  | some ps => simp [cleanMessage, hm, List.filter_filter]

theorem removedToolResults_eq (messages : List Message) :
    removedToolResults messages
      = (messages.map (fun m => (m.parts.getD []).countP isRemovedToolPart)).sum := by
  unfold removedToolResults
  rw [foldl_add_sum]
  simp

theorem keep_filter_length_add_countP (ps : List MessagePart) :
    (ps.filter keepPart).length + ps.countP isRemovedToolPart = ps.length := by
  induction ps with
  | nil => rfl
  | cons p ps ih =>
    cases hk : isRemovedToolPart p <;>
      simp [List.filter_cons, List.countP_cons, keepPart_eq_not_removed, hk] <;>
      omega

/-- C2 (amended): cleaning is idempotent, preserves the number and order of
messages, and the reported removed-count equals the number of
tool-invocation parts whose result is present and *truthy* (a present but
falsy result — `null`, `false`, `0`, `""` — is kept, not counted); the
number of parts surviving plus the removed-count is the original part
count.  The embedding is a pure function, so the input is not mutated. -/
theorem cleaner_idempotent_removed_count :
    ∀ messages : List Message,
      cleanToolResultsFromMessages (cleanToolResultsFromMessages messages)
        = cleanToolResultsFromMessages messages ∧
      removedToolResults messages = truthyResultCount messages ∧
      totalPartsCount (cleanToolResultsFromMessages messages)
          + removedToolResults messages
        = totalPartsCount messages ∧
      (cleanToolResultsFromMessages messages).length = messages.length := by
  intro messages
  refine ⟨?_, by rw [removedToolResults_eq]; rfl, ?_,
    by simp [cleanToolResultsFromMessages]⟩
  · unfold cleanToolResultsFromMessages
    rw [List.map_map]
    refine map_ext _ _ (fun m => ?_) messages
    simpa using cleanMessage_idem m
  · rw [removedToolResults_eq]
    unfold totalPartsCount cleanToolResultsFromMessages
    rw [List.map_map]
    induction messages with
    | nil => rfl
    | cons m ms ih =>
      simp only [List.map_cons, List.sum_cons, Function.comp_apply]
      have hm := keep_filter_length_add_countP (m.parts.getD [])
      rw [cleanMessage_parts]
      omega

/-- C2 counterexample: a tool-invocation part whose result is `false` is
present and non-null, so the claim counts it as removed; the code neither
removes nor counts it (truthiness check), leaving the message intact. -/
theorem cleaner_keeps_falsy_nonnull_result :
    removedToolResults [cFalsyResultMsg] = 0 ∧
    presentNonNullCount [cFalsyResultMsg] = 1 ∧
    cleanToolResultsFromMessages [cFalsyResultMsg] = [cFalsyResultMsg] := by
  exact ⟨by decide, by decide, by decide⟩

/-! ## Limiter lemmas (claims C3, C8, C10) -/

/-- The backwards walk consumes some prefix of its (reversed) input: the
kept list is that prefix re-reversed onto the seed, and the running total
grows by the per-message estimates of the consumed prefix. -/
theorem walkLoop_spec (maxT : Nat) (rs acc : List Message) (cur : Nat) :
    ∃ j, j ≤ rs.length ∧
      walkLoop maxT rs acc cur
        = ((rs.take j).reverse ++ acc,
           cur + ((rs.take j).map estimateMessageTokens).sum) := by
  induction rs generalizing acc cur with
  | nil => exact ⟨0, Nat.le_refl 0, by simp [walkLoop]⟩
  | cons m rest ih =>
    by_cases h : maxT < cur + estimateMessageTokens m
    · exact ⟨0, Nat.zero_le _, by simp [walkLoop, h]⟩
    · obtain ⟨j, hj, heq⟩ := ih (m :: acc) (cur + estimateMessageTokens m)
      refine ⟨j + 1, by simpa using Nat.succ_le_succ hj, ?_⟩
      rw [List.take_succ_cons]
      simp only [walkLoop, if_neg h, heq, List.reverse_cons, List.map_cons,
        List.sum_cons, List.append_assoc, List.cons_append, List.nil_append]
      rw [Nat.add_assoc]

/-- The walk never lets the running total pass `maxTokens`. -/
theorem walkLoop_cur_le (maxT : Nat) (rs acc : List Message) (cur : Nat)
    (h : cur ≤ maxT) : (walkLoop maxT rs acc cur).2 ≤ maxT := by
  induction rs generalizing acc cur with
  | nil => simpa [walkLoop]
  | cons m rest ih =>
    by_cases hc : maxT < cur + estimateMessageTokens m
    · simpa [walkLoop, hc]
    · simp only [walkLoop, if_neg hc]
      exact ih _ _ (Nat.le_of_not_lt hc)

/-- The joint estimate of the kept list stays below the running total. -/
theorem walkLoop_est_le (maxT : Nat) (rs acc : List Message) (cur : Nat)
    (h : estimateTokens acc ≤ cur) :
    estimateTokens (walkLoop maxT rs acc cur).1 ≤ (walkLoop maxT rs acc cur).2 := by
  induction rs generalizing acc cur with
  | nil => simpa [walkLoop]
  | cons m rest ih =>
    by_cases hc : maxT < cur + estimateMessageTokens m
    · simpa [walkLoop, hc]
    · simp only [walkLoop, if_neg hc]
      refine ih _ _ ?_
      calc estimateTokens (m :: acc)
          ≤ estimateMessageTokens m + estimateTokens acc :=
            estimateTokens_cons_le m acc
        _ ≤ estimateMessageTokens m + cur := by omega
        _ = cur + estimateMessageTokens m := Nat.add_comm _ _

/-- The seed is either the full preserved system list (when it fits) with
its estimate as running total, or empty with total 0. -/
theorem seedOf_cases (cfg : LimiterConfig) (ms : List Message) :
    (seedOf cfg ms = (systemMessagesOf cfg ms, estimateTokens (systemMessagesOf cfg ms)) ∧
      estimateTokens (systemMessagesOf cfg ms) < cfg.maxTokens) ∨
    seedOf cfg ms = ([], 0) := by
  unfold seedOf
  by_cases h : (cfg.preserveSystemMessages && !(systemMessagesOf cfg ms).isEmpty
      && decide (estimateTokens (systemMessagesOf cfg ms) < cfg.maxTokens)) = true
  · left
    refine ⟨by simp [h], ?_⟩
    have := (Bool.and_eq_true _ _).mp h
    exact of_decide_eq_true this.2
  · right
    simp [h]

theorem seedOf_est_le (cfg : LimiterConfig) (ms : List Message) :
    estimateTokens (seedOf cfg ms).1 ≤ (seedOf cfg ms).2 := by
  rcases seedOf_cases cfg ms with ⟨h, _⟩ | h <;> rw [h]
  exact Nat.le_refl _

theorem seedOf_cur_le (cfg : LimiterConfig) (ms : List Message) :
    (seedOf cfg ms).2 ≤ cfg.maxTokens := by
  rcases seedOf_cases cfg ms with ⟨h, hlt⟩ | h <;> rw [h]
  · exact Nat.le_of_lt hlt
  · exact Nat.zero_le _

theorem seedOf_units_le (cfg : LimiterConfig) (ms : List Message) :
    contentUnits (seedOf cfg ms).1 ≤ contentUnits (systemMessagesOf cfg ms) := by
  rcases seedOf_cases cfg ms with ⟨h, _⟩ | h <;> rw [h]
  exact Nat.zero_le _

theorem seedOf_fst (cfg : LimiterConfig) (ms : List Message) :
    (seedOf cfg ms).1 = systemMessagesOf cfg ms ∨ (seedOf cfg ms).1 = [] := by
  rcases seedOf_cases cfg ms with ⟨h, _⟩ | h <;> rw [h]
  · exact Or.inl rfl
  · exact Or.inr rfl

/-- The two sides of the limiter's partition carry exactly the input's
content units (with preserving off the system side is empty). -/
theorem units_partition (cfg : LimiterConfig) (ms : List Message) :
    contentUnits (nonSystemMessagesOf cfg ms)
      + contentUnits (systemMessagesOf cfg ms) = contentUnits ms := by
  unfold nonSystemMessagesOf systemMessagesOf
  by_cases h : cfg.preserveSystemMessages
  · simp only [h, if_true]
    induction ms with
    | nil => rfl
    | cons m rest ih =>
      cases hr : (m.role == "system") <;>
        simp [List.filter_cons, hr, contentUnits_cons] <;> omega
  · simp [h, contentUnits]

theorem limiterWalk_cur_le (cfg : LimiterConfig) (ms : List Message) :
    (limiterWalk cfg ms).2 ≤ cfg.maxTokens :=
  walkLoop_cur_le _ _ _ _ (seedOf_cur_le cfg ms)

theorem limiterWalk_est_le (cfg : LimiterConfig) (ms : List Message) :
    estimateTokens (limiterWalk cfg ms).1 ≤ cfg.maxTokens :=
  Nat.le_trans (walkLoop_est_le _ _ _ _ (seedOf_est_le cfg ms)) (limiterWalk_cur_le cfg ms)

/-- The collapse guard can never fire: the walk keeps the running total at
or under `maxTokens`, so `currentTokens > maxTokens` is false. -/
theorem collapseCond_false (cfg : LimiterConfig) (ms : List Message) :
    collapseCond cfg ms = false := by
  unfold collapseCond
  have h := limiterWalk_cur_le cfg ms
  have : decide (cfg.maxTokens < (limiterWalk cfg ms).2) = false :=
    decide_eq_false (Nat.not_lt.mpr h)
  rw [this, Bool.and_false]

/-- With the collapse branch dead, `limitConversation` coincides with its
collapse-free form. -/
theorem limitConversation_eq_plain (cfg : LimiterConfig) (ms : List Message) :
    limitConversation cfg ms = limitConversationPlain cfg ms := by
  unfold limitConversation limitConversationPlain
  rw [collapseCond_false]
  simp

/-- Decomposition of the walked kept list: a suffix of the non-system input
appended with the seed. -/
theorem limiterWalk_shape (cfg : LimiterConfig) (ms : List Message) :
    ∃ s, List.IsSuffix s (nonSystemMessagesOf cfg ms) ∧
      (limiterWalk cfg ms).1 = s ++ (seedOf cfg ms).1 ∧
      contentUnits s ≤ contentUnits (nonSystemMessagesOf cfg ms) := by
  obtain ⟨j, _, heq⟩ := walkLoop_spec cfg.maxTokens
    (nonSystemMessagesOf cfg ms).reverse (seedOf cfg ms).1 (seedOf cfg ms).2
  refine ⟨((nonSystemMessagesOf cfg ms).reverse.take j).reverse, ?_, ?_, ?_⟩
  · refine ⟨((nonSystemMessagesOf cfg ms).reverse.drop j).reverse, ?_⟩
    rw [← List.reverse_append, List.take_append_drop, List.reverse_reverse]
  · have : limiterWalk cfg ms = walkLoop cfg.maxTokens
        (nonSystemMessagesOf cfg ms).reverse (seedOf cfg ms).1 (seedOf cfg ms).2 := rfl
    rw [this, heq]
  · rw [contentUnits_reverse]
    calc contentUnits ((nonSystemMessagesOf cfg ms).reverse.take j)
        ≤ contentUnits (nonSystemMessagesOf cfg ms).reverse :=
          contentUnits_take_le _ j
      _ = contentUnits (nonSystemMessagesOf cfg ms) := contentUnits_reverse _

/-- C3 (amended): `limitConversation` never throws (it is a total function)
and always returns a kept list whose estimate is at or under `maxTokens`,
with `tokensSaved` equal to the original estimate minus the kept estimate
and non-negative, with faithful counts, and whose kept list is either the
unchanged input (within budget) or a contiguous order-preserving suffix of
the non-system input *followed by* the preserved system messages (the
source `unshift`s retained messages in front of the previously pushed
system messages, so the system messages come last, not first). -/
theorem limitConversation_budget_saved_shape :
    ∀ (cfg : LimiterConfig) (ms : List Message),
      estimateTokens (limitConversation cfg ms).limitedMessages ≤ cfg.maxTokens ∧
      (limitConversation cfg ms).tokensSaved
        = (estimateTokens ms : Int)
          - (estimateTokens (limitConversation cfg ms).limitedMessages : Int) ∧
      0 ≤ (limitConversation cfg ms).tokensSaved ∧
      (limitConversation cfg ms).originalCount = ms.length ∧
      (limitConversation cfg ms).limitedCount
        = (limitConversation cfg ms).limitedMessages.length ∧
      ((limitConversation cfg ms).limitedMessages = ms ∨
        ∃ s, List.IsSuffix s (nonSystemMessagesOf cfg ms) ∧
          ((limitConversation cfg ms).limitedMessages
              = s ++ systemMessagesOf cfg ms ∨
            (limitConversation cfg ms).limitedMessages = s)) := by
  intro cfg ms
  rw [limitConversation_eq_plain]
  unfold limitConversationPlain
  by_cases h : shouldLimit cfg ms = true
  · simp only [h, if_true]
    obtain ⟨s, hsuf, hshape, hunits⟩ := limiterWalk_shape cfg ms
    have hkept_le : estimateTokens (limiterWalk cfg ms).1 ≤ estimateTokens ms := by
      refine estimateTokens_mono ?_
      rw [hshape, contentUnits_append]
      have h1 := seedOf_units_le cfg ms
      have h2 := units_partition cfg ms
      omega
    refine ⟨limiterWalk_est_le cfg ms, rfl, ?_, rfl, rfl, ?_⟩
    · simp only [mainResult]
      omega
    · right
      refine ⟨s, hsuf, ?_⟩
      rcases seedOf_fst cfg ms with hf | hf
      · left
        simp only [mainResult, hshape, hf]
      · right
        simp only [mainResult, hshape, hf, List.append_nil]
  · simp only [h, if_false]
    have hle : estimateTokens ms ≤ cfg.maxTokens := by
      exact Nat.le_of_not_lt (fun hlt => h (decide_eq_true hlt))
    exact ⟨hle, by simp [noopResult], by simp [noopResult], rfl, rfl, Or.inl rfl⟩

/-- C8: the collapse edge case's trigger — kept set exactly the system
messages while the running total still exceeds `maxTokens` — is
unreachable, because the walk never lets the running total pass the budget
(system messages are only seeded when strictly under it).  The conditional
therefore always takes its otherwise-branch: no further reduction is
performed and `limitConversation` equals its collapse-free form, reporting
the walk result as-is. -/
theorem limiter_collapse_branch_unreachable :
    ∀ (cfg : LimiterConfig) (ms : List Message),
      collapseCond cfg ms = false ∧
      limitConversation cfg ms = limitConversationPlain cfg ms := by
  intro cfg ms
  exact ⟨collapseCond_false cfg ms, limitConversation_eq_plain cfg ms⟩

/-- C10: `limitConversation` can return an empty kept list.  With a budget
of 1 token, a system message estimated at 2 tokens (so the system side is
not seeded) and a most recent non-system message estimated at 2 tokens
(over the budget by itself), the result keeps zero messages rather than a
single-message floor. -/
theorem limitConversation_can_return_empty :
    (limitConversation cTinyCfg [cBigSys, cBigUser]).limitedMessages = [] ∧
    (limitConversation cTinyCfg [cBigSys, cBigUser]).limitedCount = 0 ∧
    shouldLimit cTinyCfg [cBigSys, cBigUser] = true ∧
    ¬ (estimateTokens (systemMessagesOf cTinyCfg [cBigSys, cBigUser])
        < cTinyCfg.maxTokens) ∧
    cTinyCfg.maxTokens < estimateMessageTokens cBigUser := by
  refine ⟨by decide, by decide, by decide, by decide, by decide⟩

/-- C3 counterexample: with a 2-token budget, a 1-token system message and
two 1-token user messages, the code keeps the most recent user message and
the system message in that order — `[user2, system]` — while the claim's
shape (all preserved system messages first, then the suffix) only allows
`[system]`, `[system, user2]` or `[system, user1, user2]`. -/
theorem limitConversation_systems_last_not_first :
    (limitConversation cLimCfg [cSysMsg, cUser1, cUser2]).limitedMessages
      = [cUser2, cSysMsg] ∧
    systemMessagesOf cLimCfg [cSysMsg, cUser1, cUser2] = [cSysMsg] ∧
    nonSystemMessagesOf cLimCfg [cSysMsg, cUser1, cUser2] = [cUser1, cUser2] ∧
    shouldLimit cLimCfg [cSysMsg, cUser1, cUser2] = true ∧
    [cUser2, cSysMsg] ≠ [cSysMsg] ∧
    [cUser2, cSysMsg] ≠ [cSysMsg, cUser2] ∧
    [cUser2, cSysMsg] ≠ [cSysMsg, cUser1, cUser2] := by
  refine ⟨by decide, by decide, by decide, by decide, by decide, by decide, by decide⟩

/-! ## Logger lemmas (claims C4, C9) -/

theorem foldTokens_getD (f : Option Nat) (t : Nat) : foldTokens f t = t + f.getD 0 := by
  cases f with
  | none => simp [foldTokens]
  | some k =>
    by_cases hk : k = 0 <;> simp [foldTokens, hk]

/-- Folding `addStep` over an active state accumulates exactly the mapped
token sums on top of the starting totals. -/
theorem foldl_addStep_totals (steps : List ChatUsageStep) :
    ∀ (log : ChatUsageLog) (saved : List ChatUsageLog) (w : Nat),
      logTotals (steps.foldl addStep ⟨some log, saved, w⟩)
        = (log.totalPromptTokens + (steps.map (fun s => s.promptTokens.getD 0)).sum,
           log.totalCompletionTokens + (steps.map (fun s => s.completionTokens.getD 0)).sum,
           log.totalTokens + (steps.map (fun s => s.totalTokens.getD 0)).sum) := by
  induction steps with
  | nil => intro log saved w; simp [logTotals]
  | cons s rest ih =>
    intro log saved w
    rw [List.foldl_cons]
    have hstep : addStep ⟨some log, saved, w⟩ s
        = ⟨some (
            { log with
                steps := log.steps ++ [s],
                totalPromptTokens := foldTokens s.promptTokens log.totalPromptTokens,
                totalCompletionTokens := foldTokens s.completionTokens log.totalCompletionTokens,
                totalTokens := foldTokens s.totalTokens log.totalTokens }),
          saved, w⟩ := rfl
    rw [hstep, ih]
    simp only [List.map_cons, List.sum_cons, foldTokens_getD, Prod.mk.injEq]
    refine ⟨by omega, by omega, by omega⟩

/-- C4: after `initializeLog` and any sequence of `addStep` calls, the
running totals equal the sums of the steps' token fields (a missing field
counts 0; the source skips falsy fields, which adds the same amount).  In
the scenario, `logLLMUsage(500,120,620)` followed by a `tools_loaded` step
with 3 MCP, 0 workflow and 2 app-default tools yields totals
`(500,120,620)` and a `toolsCount` of 5 on that step. -/
theorem usageLogger_totals_sum_of_steps :
    (∀ (st : LoggerState) (p : InitLogParams) (now : Nat) (steps : List ChatUsageStep),
      logTotals (steps.foldl addStep (initializeLog st p now))
        = ((steps.map (fun s => s.promptTokens.getD 0)).sum,
           (steps.map (fun s => s.completionTokens.getD 0)).sum,
           (steps.map (fun s => s.totalTokens.getD 0)).sum)) ∧
    logTotals (logToolsLoaded (logLLMUsage (initializeLog ⟨none, [], 0⟩
        ⟨"sess1", "msg1", "user1", "anthropic/claude", some 2048⟩ 0)
        500 120 620 (some "final_llm_call") 1) ["m1", "m2", "m3"] [] ["d1", "d2"] 2)
      = (500, 120, 620) ∧
    (logToolsLoaded (logLLMUsage (initializeLog ⟨none, [], 0⟩
        ⟨"sess1", "msg1", "user1", "anthropic/claude", some 2048⟩ 0)
        500 120 620 (some "final_llm_call") 1)
        ["m1", "m2", "m3"] [] ["d1", "d2"] 2).currentLog.map
        (fun l => l.steps.map (fun s => s.toolsCount))
      = some [none, some 5] := by
  refine ⟨?_, by decide, by decide⟩
  intro st p now steps
  have hini : initializeLog st p now
      = ⟨some (
          { sessionId := p.sessionId, messageId := p.messageId, timestamp := now,
            userId := p.userId, model := p.model, steps := [],
            totalPromptTokens := 0, totalCompletionTokens := 0, totalTokens := 0,
            totalExecutionTime := 0, requestSize := p.requestSize.getD 0,
            responseSize := 0 : ChatUsageLog }),
        st.savedLogs, st.warningsCount⟩ := rfl
  rw [hini, foldl_addStep_totals]
  simp

/-- C9: every recording entry point and `finalizeAndSave`, called while no
log is active, is a total no-op apart from one warning: it throws nothing,
persists no row (`savedLogs` unchanged), and leaves the log state
uninitialized. -/
theorem usageLogger_uninitialized_noop :
    ∀ (saved : List ChatUsageLog) (w : Nat) (step : ChatUsageStep)
      (pt ct tt : Nat) (nm : Option String) (now : Nat)
      (mcp wf ad : List String) (rs : Option Nat),
      addStep ⟨none, saved, w⟩ step = ⟨none, saved, w + 1⟩ ∧
      logLLMUsage ⟨none, saved, w⟩ pt ct tt nm now = ⟨none, saved, w + 1⟩ ∧
      logToolsLoaded ⟨none, saved, w⟩ mcp wf ad now = ⟨none, saved, w + 1⟩ ∧
      finalizeAndSave ⟨none, saved, w⟩ rs now = ⟨none, saved, w + 1⟩ := by
  intro saved w step pt ct tt nm now mcp wf ad rs
  exact ⟨rfl, rfl, rfl, rfl⟩

/-! ## Summarizer lemmas (claim C5) -/

/-- Reduction of the active, successful summarization path. -/
theorem summarize_ok_eq (cfg : SummarizerConfig) (now : Nat) (s : String)
    (ms : List Message) :
    summarizeConversation cfg true now (Except.ok s) ms
      = ({ id := "summary-" ++ toString now, role := "system",
           content := "[Conversation Summary: " ++ s ++ "]" }
            :: jsSliceLastNeg ms cfg.keepRecentMessages,
         { summary := s
           originalMessageCount := (jsSliceInitNeg ms cfg.keepRecentMessages).length
           summarizedAt := now
           tokensSaved :=
             (summarizerEstimateTokens (jsSliceInitNeg ms cfg.keepRecentMessages) : Int)
               - (((utf16Len s + 3) / 4 : Nat) : Int) }) := rfl

/-- C5 (amended): when the auxiliary call throws, `summarizeConversation`
returns the input unchanged with a zero-savings summary (never raising —
the embedding is total); when the call succeeds, the gate is active and the
input is longer than `keepRecentMessages ≥ 1`, the output has
`keepRecentMessages + 1` messages whose extra first message has role
"system".  (For `keepRecentMessages = 0` the success path instead keeps
every message plus the summary — the JS `slice(-0)` quirk — which is the
correction the counterexample forces.) -/
theorem summarizeConversation_fallback_and_active_length :
    ∀ (cfg : SummarizerConfig) (gate : Bool) (now : Nat) (ms : List Message),
      (summarizeConversation cfg gate now (Except.error ()) ms
        = (ms, { summary := "", originalMessageCount := 0,
                 summarizedAt := now, tokensSaved := 0 })) ∧
      ∀ s : String, gate = true → 1 ≤ cfg.keepRecentMessages →
        cfg.keepRecentMessages < ms.length →
        (summarizeConversation cfg gate now (Except.ok s) ms).1.length
            = cfg.keepRecentMessages + 1 ∧
        ((summarizeConversation cfg gate now (Except.ok s) ms).1.head?.map
            (fun m => m.role)) = some "system" := by
  intro cfg gate now ms
  constructor
  · cases gate <;> rfl
  · intro s hg h1 h2
    subst hg
    rw [summarize_ok_eq]
    refine ⟨?_, rfl⟩
    simp only [List.length_cons]
    unfold jsSliceLastNeg
    have hk : cfg.keepRecentMessages ≠ 0 := by omega
    rw [if_neg hk, List.length_drop]
    omega

/-- Witness for C5's amended theorem at `keepRecentMessages = 1` with two
messages. -/
theorem summarizeConversation_fallback_and_active_length_witness :
    (summarizeConversation cKeepOneCfg true 7 (Except.error ()) [cMsgA, cMsgB]
      = ([cMsgA, cMsgB],
          { summary := "", originalMessageCount := 0,
            summarizedAt := 7, tokensSaved := 0 })) ∧
    (summarizeConversation cKeepOneCfg true 7 (Except.ok "S") [cMsgA, cMsgB]).1.length = 2 ∧
    ((summarizeConversation cKeepOneCfg true 7 (Except.ok "S") [cMsgA, cMsgB]).1.head?.map
      (fun m => m.role)) = some "system" := by
  have h := summarizeConversation_fallback_and_active_length cKeepOneCfg true 7 [cMsgA, cMsgB]
  have h2 := h.2 "S" rfl (by decide) (by decide)
  exact ⟨h.1, h2.1, h2.2⟩

/-- C5 counterexample: with `keepRecentMessages = 0` (a configuration the
commented-out original gate accepts: the estimate exceeds `maxTokens = 0`
and `1 > 0` messages), a successful summarization returns `n + 1 = 2`
messages, not the claimed `keepRecentMessages + 1 = 1`, because JS
`slice(-0)` keeps the whole list. -/
theorem summarizeConversation_keep_zero_quirk :
    shouldSummarizeOriginal cKeepZeroCfg [cMsgA] = true ∧
    (summarizeConversation cKeepZeroCfg true 7 (Except.ok "S") [cMsgA]).1.length = 2 ∧
    cKeepZeroCfg.keepRecentMessages + 1 = 1 ∧
    cKeepZeroCfg.keepRecentMessages < [cMsgA].length := by
  refine ⟨by decide, by decide, by decide, by decide⟩

/-! ## Repository claims (C6, C7) -/

/-- C6: `getTokenUsageSummary` over a filter matching no rows returns the
all-zero record — every field 0, never null/undefined in the embedding's
`Nat` fields — and in particular the average is 0 (the division is guarded
by the request count's truthiness, so no division by zero happens). -/
theorem tokenUsageSummary_empty_all_zero :
    ∀ (now : Int) (flt : UsageFilters) (rows : List UsageRow),
      (rows.filter (matchesFilter now flt)).length = 0 →
      getTokenUsageSummary now flt rows = ⟨0, 0, 0, 0, 0, 0, 0⟩ := by
  intro now flt rows h
  have hsel : rows.filter (matchesFilter now flt) = [] := List.length_eq_zero.mp h
  unfold getTokenUsageSummary
  rw [hsel]
  rfl

/-- Witness for C6 at the empty row set with a last-hour filter. -/
theorem tokenUsageSummary_empty_all_zero_witness :
    (([] : List UsageRow).filter (matchesFilter 0 ⟨TimeRange.lastHour, none, none⟩)).length
      = 0 ∧
    getTokenUsageSummary 0 ⟨TimeRange.lastHour, none, none⟩ [] = ⟨0, 0, 0, 0, 0, 0, 0⟩ :=
  ⟨by decide, tokenUsageSummary_empty_all_zero 0 ⟨TimeRange.lastHour, none, none⟩ [] (by decide)⟩

/-- C7: `getHighUsageSessions(limit, minTokens)` returns at most `limit`
rows, every returned session meets the `minTokens` threshold, the rows are
ranked in descending order of summed tokens, and when the qualifying
sessions fit within `limit` the result is exactly (a permutation of) them.
Scenario 4: with sessions totalling 500, 1200 and 5000, `limit = 2` and
`minTokens = 1000` return exactly the 5000 and 1200 sessions in that
order. -/
theorem highUsageSessions_ranked_threshold_capped :
    (∀ (rows : List UsageRow) (limit minTokens : Nat),
      (getHighUsageSessions rows limit minTokens).length ≤ limit ∧
      (∀ a, a ∈ getHighUsageSessions rows limit minTokens → minTokens ≤ a.totalTokens) ∧
      List.Sorted sessDesc (getHighUsageSessions rows limit minTokens) ∧
      ((qualifyingSessions rows minTokens).length ≤ limit →
        (getHighUsageSessions rows limit minTokens).Perm
          (qualifyingSessions rows minTokens))) ∧
    (getHighUsageSessions [cRow500, cRow1200, cRow5000] 2 1000).map
        (fun a => a.sessionId) = ["s3", "s2"] ∧
    (getHighUsageSessions [cRow500, cRow1200, cRow5000] 2 1000).map
        (fun a => a.totalTokens) = [5000, 1200] := by
  refine ⟨?_, by decide, by decide⟩
  intro rows limit minTokens
  refine ⟨?_, ?_, ?_, ?_⟩
  · unfold getHighUsageSessions
    rw [List.length_take]
    exact Nat.min_le_left _ _
  · intro a ha
    have hmem : a ∈ List.insertionSort sessDesc (qualifyingSessions rows minTokens) :=
      List.mem_of_mem_take ha
    have hq : a ∈ qualifyingSessions rows minTokens :=
      (List.perm_insertionSort sessDesc _).mem_iff.mp hmem
    have := List.of_mem_filter hq
    exact of_decide_eq_true this
  · exact List.Pairwise.sublist (List.take_sublist _ _)
      (List.sorted_insertionSort sessDesc _)
  · intro hlim
    unfold getHighUsageSessions
    have hlen : (List.insertionSort sessDesc (qualifyingSessions rows minTokens)).length
        ≤ limit := by
      rw [(List.perm_insertionSort sessDesc _).length_eq]
      exact hlim
    rw [List.take_of_length_le hlen]
    exact List.perm_insertionSort sessDesc _

/-- Witness for C7's general part: at the scenario input the membership
hypothesis and the qualifying-fit hypothesis are discharged concretely. -/
theorem highUsageSessions_ranked_threshold_capped_witness :
    1000 ≤ (sessionAggOf [cRow500, cRow1200, cRow5000] ("s3", "u3")).totalTokens ∧
    (getHighUsageSessions [cRow500, cRow1200, cRow5000] 2 1000).Perm
      (qualifyingSessions [cRow500, cRow1200, cRow5000] 1000) := by
  have h := highUsageSessions_ranked_threshold_capped.1 [cRow500, cRow1200, cRow5000] 2 1000
  exact ⟨h.2.1 (sessionAggOf [cRow500, cRow1200, cRow5000] ("s3", "u3")) (by decide),
    h.2.2.2 (by decide)⟩

end TercihifyChat
